import Mathlib

/-!
Verification of the firewood supply-demand allocation program
(src/firewood_allocation.py).

Modelling conventions:
- Python floats are modelled as rationals (ℚ).
- A Python dict used as a location → value map with lookups of the form
  d.get(k, 0.0) is modelled as a total function String → ℚ; a key that is
  absent from the dict corresponds to a key mapped to the default 0.
- Dict assignment d[k] = v is modelled by pointwise functional update.
- Pandas DataFrames are modelled as lists; the row iteration order of
  greedy_allocate is the list order.  The stable mergesort used by
  pandas sort_values(kind=mergesort) is modelled by List.mergeSort.
- Raising ValueError is modelled by the Except monad; the error payload
  is the list of missing required column names.
- The I/O plumbing (CSV parsing, numeric coercion) is the external
  collaborator: an input table is modelled as its column-name list
  together with its already-parsed numeric content.
-/

namespace Firewood

/-- Locations are identified by their (whitespace-trimmed) string name. -/
abbrev Location := String

/-- A remaining-supply or remaining-demand map: Python dict with
lookup default 0.0, modelled as a total function. -/
abbrev AllocMap := Location → ℚ

/-- Pointwise update of an AllocMap, modelling dict assignment. -/
def updateMap (m : AllocMap) (k : Location) (v : ℚ) : AllocMap :=
  fun x => if x = k then v else m x

/-- One row of the OD (origin-destination) distance table. -/
structure DistancePair where
  origin_id : Location
  destination_id : Location
  distance_km : ℚ
deriving DecidableEq, Repr

/-- One line item produced by a successful allocation step
(the dict appended to the allocations list in greedy_allocate). -/
structure AllocationRecord where
  origin_id : Location
  destination_id : Location
  allocated_volume : ℚ
  distance_km : ℚ
  demand_type : String
  weighted_cost : ℚ
deriving DecidableEq, Repr

/-- The mutable state of one allocation pass: the shared remaining-supply
map, the per-pass remaining-demand map, the emitted records in emission
order, and the running weighted-cost total. -/
structure PassState where
  supply_map : AllocMap
  demand_map : AllocMap
  allocations : List AllocationRecord
  total_weighted_cost : ℚ

/-- The distance-cutoff test of greedy_allocate:
cutoff_km is not None and dist > cutoff_km. -/
def distanceExceedsCutoff (cutoff_km : Option ℚ) (dist : ℚ) : Bool :=
  match cutoff_km with
  | some c => decide (dist > c)
  | none => false

/-- The body of the loop of greedy_allocate for a single OD row
(src/firewood_allocation.py lines 138-168). -/
def allocStep (demand_type : String) (cutoff_km : Option ℚ)
    (st : PassState) (row : DistancePair) : PassState :=
  let o := row.origin_id
  let d := row.destination_id
  let dist := row.distance_km
  if distanceExceedsCutoff cutoff_km dist then st
  else
    let s_left := st.supply_map o
    let d_left := st.demand_map d
    if s_left ≤ 0 ∨ d_left ≤ 0 then st
    else
      let alloc := if s_left < d_left then s_left else d_left
      if alloc ≤ 0 then st
      else
        let wcost := alloc * dist
        { supply_map := updateMap st.supply_map o (s_left - alloc)
          demand_map := updateMap st.demand_map d (d_left - alloc)
          allocations := st.allocations ++
            [{ origin_id := o
               destination_id := d
               allocated_volume := alloc
               distance_km := dist
               demand_type := demand_type
               weighted_cost := wcost }]
          total_weighted_cost := st.total_weighted_cost + wcost }

/-- Greedy distance-first allocation for a single demand map
(src/firewood_allocation.py lines 125-170).  The returned PassState
holds the allocations list and total_weighted_cost that the Python
function returns, together with the final contents of the two maps it
mutated in place. -/
def greedy_allocate (od_df : List DistancePair)
    (supply_map demand_map : AllocMap)
    (demand_type : String) (cutoff_km : Option ℚ) : PassState :=
  od_df.foldl (allocStep demand_type cutoff_km)
    { supply_map := supply_map
      demand_map := demand_map
      allocations := []
      total_weighted_cost := 0 }

/-- Everything main computes from the two passes. -/
structure RunResult where
  alloc_ind : List AllocationRecord
  cost_ind : ℚ
  alloc_res : List AllocationRecord
  cost_res : ℚ
  records : List AllocationRecord
  final_supply : AllocMap
  final_ind : AllocMap
  final_res : AllocMap

/-- The allocation part of main (src/firewood_allocation.py lines
181-194): pass 1 industrial, pass 2 residential with the supply map as
pass 1 left it, records concatenated industrial first. -/
def runAllocation (od_df : List DistancePair) (supply ind res : AllocMap)
    (cutoff_km : Option ℚ) : RunResult :=
  let pass1 := greedy_allocate od_df supply ind "industrial" cutoff_km
  let pass2 := greedy_allocate od_df pass1.supply_map res "residential" cutoff_km
  { alloc_ind := pass1.allocations
    cost_ind := pass1.total_weighted_cost
    alloc_res := pass2.allocations
    cost_res := pass2.total_weighted_cost
    records := pass1.allocations ++ pass2.allocations
    final_supply := pass2.supply_map
    final_ind := pass1.demand_map
    final_res := pass2.demand_map }

/-- The column rename map of load_demand_supply. -/
def ds_rename_map : List (String × String) :=
  [("DEMAND_INDUSTRY", "INDUSTRIAL_DEMAND"),
   ("DEMAND_RESIDENTIAL", "RESIDENTIAL_DEMAND"),
   ("name", "NAME"),
   ("supply", "SUPPLY"),
   ("industrial_demand", "INDUSTRIAL_DEMAND"),
   ("residential_demand", "RESIDENTIAL_DEMAND")]

/-- The column rename map of load_od. -/
def od_rename_map : List (String × String) :=
  [("Origin", "origin_id"),
   ("Destination", "destination_id"),
   ("Distance_km", "distance_km"),
   ("distance", "distance_km")]

/-- df.rename(columns=rm): every column label that is a key of the
rename map is replaced by its image, others are kept. -/
def renameColumns (rm : List (String × String)) (cols : List String) :
    List String :=
  cols.map (fun c =>
    match rm.lookup c with
    | some v => v
    | none => c)

/-- Required columns of the demand/supply table. -/
def ds_required : List String :=
  ["NAME", "SUPPLY", "INDUSTRIAL_DEMAND", "RESIDENTIAL_DEMAND"]

/-- Required columns of the OD table. -/
def od_required : List String :=
  ["origin_id", "destination_id", "distance_km"]

/-- The set required - set(df.columns) of load_demand_supply, as the
sublist of required columns absent after renaming. -/
def ds_missing (cols : List String) : List String :=
  ds_required.filter (fun c => decide (c ∉ renameColumns ds_rename_map cols))

/-- The set required - set(od.columns) of load_od. -/
def od_missing (cols : List String) : List String :=
  od_required.filter (fun c => decide (c ∉ renameColumns od_rename_map cols))

/-- The demand/supply input table: its column names together with its
already-parsed numeric content (the three Location → ℚ maps that main
extracts from it; parsing is the external I/O collaborator). -/
structure DSInput where
  columns : List String
  supply : AllocMap
  industrial_demand : AllocMap
  residential_demand : AllocMap

/-- The OD input table: its column names together with its
already-parsed rows in input order. -/
structure ODInput where
  columns : List String
  pairs : List DistancePair

/-- The Bool comparison used to sort the OD table: ascending
distance_km. -/
def pairLE (a b : DistancePair) : Bool :=
  decide (a.distance_km ≤ b.distance_km)

/-- od.sort_values(distance_km, kind=mergesort): a stable mergesort by
ascending distance. -/
def sortPairs (l : List DistancePair) : List DistancePair :=
  l.mergeSort pairLE

/-- load_demand_supply (src/firewood_allocation.py lines 54-94): after
renaming, raise ValueError listing the missing required columns if any,
otherwise hand the parsed maps to the caller. -/
def load_demand_supply (t : DSInput) :
    Except (List String) (AllocMap × AllocMap × AllocMap) :=
  if (ds_missing t.columns).isEmpty then
    Except.ok (t.supply, t.industrial_demand, t.residential_demand)
  else
    Except.error (ds_missing t.columns)

/-- load_od (src/firewood_allocation.py lines 96-123): after renaming,
raise ValueError listing the missing required columns if any, otherwise
return the rows stably sorted by ascending distance. -/
def load_od (t : ODInput) : Except (List String) (List DistancePair) :=
  if (od_missing t.columns).isEmpty then
    Except.ok (sortPairs t.pairs)
  else
    Except.error (od_missing t.columns)

/-- main (src/firewood_allocation.py lines 172-205): load both tables
(each load may abort with its missing-column set), then run the
two-pass allocation. -/
def main_run (ds : DSInput) (od : ODInput) (cutoff_km : Option ℚ) :
    Except (List String) RunResult :=
  match load_demand_supply ds with
  | Except.error m => Except.error m
  | Except.ok (supply, ind, res) =>
    match load_od od with
    | Except.error m => Except.error m
    | Except.ok od_df => Except.ok (runAllocation od_df supply ind res cutoff_km)

/-- Sum of allocated_volume over the records whose origin is loc. -/
def originVolume (loc : Location) (rs : List AllocationRecord) : ℚ :=
  ((rs.filter (fun r => decide (r.origin_id = loc))).map
    AllocationRecord.allocated_volume).sum

/-- Sum of allocated_volume over the records whose destination is loc. -/
def destVolume (loc : Location) (rs : List AllocationRecord) : ℚ :=
  ((rs.filter (fun r => decide (r.destination_id = loc))).map
    AllocationRecord.allocated_volume).sum

/-- Sum of the weighted_cost fields of a record list. -/
def costSum (rs : List AllocationRecord) : ℚ :=
  (rs.map AllocationRecord.weighted_cost).sum

/-- Amount allocated in the emitting branch of allocStep:
the minimum of remaining supply and remaining demand, written as the
conditional of the source. -/
def allocAmount (st : PassState) (row : DistancePair) : ℚ :=
  if st.supply_map row.origin_id < st.demand_map row.destination_id
  then st.supply_map row.origin_id
  else st.demand_map row.destination_id

/-- The record appended in the emitting branch of allocStep. -/
def emitRecord (dt : String) (st : PassState) (row : DistancePair) :
    AllocationRecord :=
  { origin_id := row.origin_id
    destination_id := row.destination_id
    allocated_volume := allocAmount st row
    distance_km := row.distance_km
    demand_type := dt
    weighted_cost := allocAmount st row * row.distance_km }

/-- The state after the emitting branch of allocStep. -/
def emitState (dt : String) (st : PassState) (row : DistancePair) :
    PassState :=
  { supply_map := updateMap st.supply_map row.origin_id
      (st.supply_map row.origin_id - allocAmount st row)
    demand_map := updateMap st.demand_map row.destination_id
      (st.demand_map row.destination_id - allocAmount st row)
    allocations := st.allocations ++ [emitRecord dt st row]
    total_weighted_cost :=
      st.total_weighted_cost + allocAmount st row * row.distance_km }

/-- The worked example of the spec: supply at A. -/
def exSupply : AllocMap := fun l => if l = "A" then 10 else 0

/-- The worked example: industrial demand at B. -/
def exInd : AllocMap := fun l => if l = "B" then 6 else 0

/-- The worked example: residential demand at B. -/
def exRes : AllocMap := fun l => if l = "B" then 10 else 0

/-- The worked example: a single pair A to B at distance 5. -/
def exPairs : List DistancePair :=
  [{ origin_id := "A", destination_id := "B", distance_km := 5 }]

/-- The worked example run with cutoff 50. -/
def exRun : RunResult :=
  runAllocation exPairs exSupply exInd exRes (some 50)

/-- The single OD row of the worked example. -/
def exRow : DistancePair :=
  { origin_id := "A", destination_id := "B", distance_km := 5 }

/-- The industrial record the worked example emits. -/
def exRecordInd : AllocationRecord :=
  { origin_id := "A", destination_id := "B", allocated_volume := 6,
    distance_km := 5, demand_type := "industrial", weighted_cost := 30 }

/-- The residential record the worked example emits. -/
def exRecordRes : AllocationRecord :=
  { origin_id := "A", destination_id := "B", allocated_volume := 4,
    distance_km := 5, demand_type := "residential", weighted_cost := 20 }

/-- The initial pass state of the worked example industrial pass. -/
def exState : PassState :=
  { supply_map := exSupply, demand_map := exInd, allocations := [],
    total_weighted_cost := 0 }

/-- A pass state whose supply is exhausted everywhere. -/
def exStateZero : PassState :=
  { supply_map := fun _ => 0, demand_map := exInd, allocations := [],
    total_weighted_cost := 0 }

/-- A demand/supply table missing two required columns. -/
def exDS : DSInput :=
  { columns := ["NAME", "SUPPLY"], supply := fun _ => 0,
    industrial_demand := fun _ => 0, residential_demand := fun _ => 0 }

/-- A demand/supply table with all required columns. -/
def exDSok : DSInput :=
  { columns := ["NAME", "SUPPLY", "INDUSTRIAL_DEMAND", "RESIDENTIAL_DEMAND"],
    supply := fun _ => 0, industrial_demand := fun _ => 0,
    residential_demand := fun _ => 0 }

/-- An OD table with all required columns and no rows. -/
def exOD : ODInput :=
  { columns := ["origin_id", "destination_id", "distance_km"], pairs := [] }

/-- An OD table missing two required columns. -/
def exODbad : ODInput :=
  { columns := ["origin_id"], pairs := [] }

/-- Every allocStep either leaves the state unchanged (a skipped pair)
or, when the cutoff test fails and both sides are strictly positive,
performs the emitting branch. -/
theorem allocStep_skip_or_emit (dt : String) (c : Option ℚ)
    (st : PassState) (row : DistancePair) :
    allocStep dt c st row = st ∨
    (distanceExceedsCutoff c row.distance_km = false ∧
     0 < st.supply_map row.origin_id ∧
     0 < st.demand_map row.destination_id ∧
     allocStep dt c st row = emitState dt st row) := by
  by_cases h1 : distanceExceedsCutoff c row.distance_km = true
  · left
    simp [allocStep, h1]
  · by_cases h2 : st.supply_map row.origin_id ≤ 0 ∨
        st.demand_map row.destination_id ≤ 0
    · left
      simp [allocStep, h1, h2]
    · right
      push_neg at h2
      obtain ⟨hs, hd⟩ := h2
      have halloc : ¬ allocAmount st row ≤ 0 := by
        unfold allocAmount
        split <;> linarith
      refine ⟨by simpa using h1, hs, hd, ?_⟩
      have h2' : ¬ (st.supply_map row.origin_id ≤ 0 ∨
          st.demand_map row.destination_id ≤ 0) := by
        push_neg
        exact ⟨hs, hd⟩
      simp only [allocStep, h1, Bool.false_eq_true, if_false, h2', if_neg]
      rw [if_neg (by simpa [allocAmount] using halloc)]
      rfl

/-- A property preserved by every allocStep holds after the whole fold. -/
theorem foldl_allocStep_inv (dt : String) (c : Option ℚ)
    (P : PassState → Prop)
    (hstep : ∀ st row, P st → P (allocStep dt c st row)) :
    ∀ (l : List DistancePair) (st : PassState),
      P st → P (l.foldl (allocStep dt c) st) := by
  intro l
  induction l with
  | nil => exact fun st h => h
  | cons a t ih => exact fun st h => ih _ (hstep st a h)

theorem originVolume_nil (loc : Location) : originVolume loc [] = 0 := rfl

theorem destVolume_nil (loc : Location) : destVolume loc [] = 0 := rfl

theorem costSum_nil : costSum [] = 0 := rfl

theorem originVolume_append (loc : Location)
    (a b : List AllocationRecord) :
    originVolume loc (a ++ b) = originVolume loc a + originVolume loc b := by
  simp [originVolume, List.filter_append]

theorem destVolume_append (loc : Location) (a b : List AllocationRecord) :
    destVolume loc (a ++ b) = destVolume loc a + destVolume loc b := by
  simp [destVolume, List.filter_append]

theorem costSum_append (a b : List AllocationRecord) :
    costSum (a ++ b) = costSum a + costSum b := by
  simp [costSum]

theorem originVolume_singleton (loc : Location) (r : AllocationRecord) :
    originVolume loc [r] =
      if r.origin_id = loc then r.allocated_volume else 0 := by
  simp only [originVolume, List.filter]
  split <;> simp_all

theorem destVolume_singleton (loc : Location) (r : AllocationRecord) :
    destVolume loc [r] =
      if r.destination_id = loc then r.allocated_volume else 0 := by
  simp only [destVolume, List.filter]
  split <;> simp_all

theorem costSum_singleton (r : AllocationRecord) :
    costSum [r] = r.weighted_cost := by
  simp [costSum]

theorem allocAmount_eq_min (st : PassState) (row : DistancePair) :
    allocAmount st row =
      min (st.supply_map row.origin_id) (st.demand_map row.destination_id) := by
  unfold allocAmount
  rcases le_or_lt (st.demand_map row.destination_id)
      (st.supply_map row.origin_id) with h | h
  · rw [min_eq_right h, if_neg (not_lt.mpr h)]
  · rw [min_eq_left h.le, if_pos h]

theorem allocAmount_le_supply (st : PassState) (row : DistancePair) :
    allocAmount st row ≤ st.supply_map row.origin_id := by
  rw [allocAmount_eq_min]
  exact min_le_left _ _

theorem allocAmount_le_demand (st : PassState) (row : DistancePair) :
    allocAmount st row ≤ st.demand_map row.destination_id := by
  rw [allocAmount_eq_min]
  exact min_le_right _ _

theorem step_supply_conserve (dt : String) (c : Option ℚ)
    (st : PassState) (row : DistancePair) (loc : Location) :
    (allocStep dt c st row).supply_map loc +
        originVolume loc (allocStep dt c st row).allocations =
      st.supply_map loc + originVolume loc st.allocations := by
  rcases allocStep_skip_or_emit dt c st row with h | ⟨_, _, _, h⟩
  · rw [h]
  · rw [h]
    by_cases hl : loc = row.origin_id
    · subst hl
      simp [emitState, emitRecord, updateMap, originVolume_append,
        originVolume_singleton]
    · have hl2 : ¬ row.origin_id = loc := fun he => hl he.symm
      simp [emitState, emitRecord, updateMap, originVolume_append,
        originVolume_singleton, hl, hl2]

theorem step_demand_conserve (dt : String) (c : Option ℚ)
    (st : PassState) (row : DistancePair) (loc : Location) :
    (allocStep dt c st row).demand_map loc +
        destVolume loc (allocStep dt c st row).allocations =
      st.demand_map loc + destVolume loc st.allocations := by
  rcases allocStep_skip_or_emit dt c st row with h | ⟨_, _, _, h⟩
  · rw [h]
  · rw [h]
    by_cases hl : loc = row.destination_id
    · subst hl
      simp [emitState, emitRecord, updateMap, destVolume_append,
        destVolume_singleton]
    · have hl2 : ¬ row.destination_id = loc := fun he => hl he.symm
      simp [emitState, emitRecord, updateMap, destVolume_append,
        destVolume_singleton, hl, hl2]

theorem step_supply_nonneg (dt : String) (c : Option ℚ)
    (st : PassState) (row : DistancePair) (loc : Location)
    (h : 0 ≤ st.supply_map loc) :
    0 ≤ (allocStep dt c st row).supply_map loc := by
  rcases allocStep_skip_or_emit dt c st row with he | ⟨_, _, _, he⟩
  · rw [he]
    exact h
  · rw [he]
    by_cases hl : loc = row.origin_id
    · subst hl
      have := allocAmount_le_supply st row
      simp [emitState, updateMap]
      linarith
    · simp only [emitState, updateMap, if_neg hl]
      exact h

theorem step_demand_nonneg (dt : String) (c : Option ℚ)
    (st : PassState) (row : DistancePair) (loc : Location)
    (h : 0 ≤ st.demand_map loc) :
    0 ≤ (allocStep dt c st row).demand_map loc := by
  rcases allocStep_skip_or_emit dt c st row with he | ⟨_, _, _, he⟩
  · rw [he]
    exact h
  · rw [he]
    by_cases hl : loc = row.destination_id
    · subst hl
      have := allocAmount_le_demand st row
      simp [emitState, updateMap]
      linarith
    · simp only [emitState, updateMap, if_neg hl]
      exact h

theorem step_cost (dt : String) (c : Option ℚ)
    (st : PassState) (row : DistancePair)
    (h : st.total_weighted_cost = costSum st.allocations) :
    (allocStep dt c st row).total_weighted_cost =
      costSum (allocStep dt c st row).allocations := by
  rcases allocStep_skip_or_emit dt c st row with he | ⟨_, _, _, he⟩
  · rw [he]
    exact h
  · rw [he]
    unfold emitState
    rw [costSum_append, costSum_singleton, h]
    rfl

theorem step_mem_allocations (dt : String) (c : Option ℚ)
    (st : PassState) (row : DistancePair) (r : AllocationRecord)
    (h : r ∈ (allocStep dt c st row).allocations) :
    r ∈ st.allocations ∨
    (distanceExceedsCutoff c row.distance_km = false ∧
     0 < st.supply_map row.origin_id ∧
     0 < st.demand_map row.destination_id ∧
     r = emitRecord dt st row) := by
  rcases allocStep_skip_or_emit dt c st row with he | ⟨h1, h2, h3, he⟩
  · rw [he] at h
    exact Or.inl h
  · rw [he] at h
    unfold emitState at h
    simp only [List.mem_append, List.mem_singleton] at h
    rcases h with h | h
    · exact Or.inl h
    · exact Or.inr ⟨h1, h2, h3, h⟩

theorem step_emit_eq (dt : String) (c : Option ℚ)
    (st : PassState) (row : DistancePair) (r : AllocationRecord)
    (h : (allocStep dt c st row).allocations = st.allocations ++ [r]) :
    distanceExceedsCutoff c row.distance_km = false ∧
    0 < st.supply_map row.origin_id ∧
    0 < st.demand_map row.destination_id ∧
    r = emitRecord dt st row ∧
    allocStep dt c st row = emitState dt st row := by
  rcases allocStep_skip_or_emit dt c st row with he | ⟨h1, h2, h3, he⟩
  · rw [he] at h
    exact absurd h (by simp)
  · rw [he] at h
    unfold emitState at h
    have := List.append_cancel_left h
    simp only [List.cons.injEq, and_true] at this
    exact ⟨h1, h2, h3, this.symm, he⟩

theorem greedy_eq_foldl (od : List DistancePair) (s dm : AllocMap)
    (dt : String) (c : Option ℚ) :
    greedy_allocate od s dm dt c =
      od.foldl (allocStep dt c)
        { supply_map := s, demand_map := dm, allocations := [],
          total_weighted_cost := 0 } := rfl

theorem greedy_supply_conserve (od : List DistancePair) (s dm : AllocMap)
    (dt : String) (c : Option ℚ) (loc : Location) :
    (greedy_allocate od s dm dt c).supply_map loc +
        originVolume loc (greedy_allocate od s dm dt c).allocations =
      s loc := by
  rw [greedy_eq_foldl]
  exact foldl_allocStep_inv dt c
    (fun st => st.supply_map loc + originVolume loc st.allocations = s loc)
    (fun st row h => (step_supply_conserve dt c st row loc).trans h)
    od _ (by simp [originVolume_nil])

theorem greedy_demand_conserve (od : List DistancePair) (s dm : AllocMap)
    (dt : String) (c : Option ℚ) (loc : Location) :
    (greedy_allocate od s dm dt c).demand_map loc +
        destVolume loc (greedy_allocate od s dm dt c).allocations =
      dm loc := by
  rw [greedy_eq_foldl]
  exact foldl_allocStep_inv dt c
    (fun st => st.demand_map loc + destVolume loc st.allocations = dm loc)
    (fun st row h => (step_demand_conserve dt c st row loc).trans h)
    od _ (by simp [destVolume_nil])

theorem greedy_supply_nonneg (od : List DistancePair) (s dm : AllocMap)
    (dt : String) (c : Option ℚ) (loc : Location) (h : 0 ≤ s loc) :
    0 ≤ (greedy_allocate od s dm dt c).supply_map loc := by
  rw [greedy_eq_foldl]
  exact foldl_allocStep_inv dt c (fun st => 0 ≤ st.supply_map loc)
    (fun st row hp => step_supply_nonneg dt c st row loc hp) od _ h

theorem greedy_demand_nonneg (od : List DistancePair) (s dm : AllocMap)
    (dt : String) (c : Option ℚ) (loc : Location) (h : 0 ≤ dm loc) :
    0 ≤ (greedy_allocate od s dm dt c).demand_map loc := by
  rw [greedy_eq_foldl]
  exact foldl_allocStep_inv dt c (fun st => 0 ≤ st.demand_map loc)
    (fun st row hp => step_demand_nonneg dt c st row loc hp) od _ h

theorem greedy_cost_sum (od : List DistancePair) (s dm : AllocMap)
    (dt : String) (c : Option ℚ) :
    (greedy_allocate od s dm dt c).total_weighted_cost =
      costSum (greedy_allocate od s dm dt c).allocations := by
  rw [greedy_eq_foldl]
  exact foldl_allocStep_inv dt c
    (fun st => st.total_weighted_cost = costSum st.allocations)
    (fun st row h => step_cost dt c st row h) od _ (by simp [costSum_nil])

theorem greedy_records_emitted (od : List DistancePair) (s dm : AllocMap)
    (dt : String) (c : Option ℚ) (r : AllocationRecord)
    (h : r ∈ (greedy_allocate od s dm dt c).allocations) :
    ∃ (st : PassState) (row : DistancePair),
      distanceExceedsCutoff c row.distance_km = false ∧
      0 < st.supply_map row.origin_id ∧
      0 < st.demand_map row.destination_id ∧
      r = emitRecord dt st row := by
  rw [greedy_eq_foldl] at h
  refine foldl_allocStep_inv dt c
    (fun st => ∀ q ∈ st.allocations,
      ∃ (st1 : PassState) (row : DistancePair),
        distanceExceedsCutoff c row.distance_km = false ∧
        0 < st1.supply_map row.origin_id ∧
        0 < st1.demand_map row.destination_id ∧
        q = emitRecord dt st1 row)
    ?_ od _ ?_ r h
  · intro st row hp q hq
    rcases step_mem_allocations dt c st row q hq with hold | ⟨h1, h2, h3, h4⟩
    · exact hp q hold
    · exact ⟨st, row, h1, h2, h3, h4⟩
  · intro q hq
    simp at hq

theorem emitRecord_volume_pos (dt : String) (st : PassState)
    (row : DistancePair) (hs : 0 < st.supply_map row.origin_id)
    (hd : 0 < st.demand_map row.destination_id) :
    0 < (emitRecord dt st row).allocated_volume := by
  show 0 < allocAmount st row
  rw [allocAmount_eq_min]
  exact lt_min hs hd

theorem emitRecord_wcost (dt : String) (st : PassState)
    (row : DistancePair) :
    (emitRecord dt st row).weighted_cost =
      (emitRecord dt st row).allocated_volume *
        (emitRecord dt st row).distance_km := rfl

theorem cutoff_false_le (c dist : ℚ)
    (h : distanceExceedsCutoff (some c) dist = false) : dist ≤ c := by
  simp only [distanceExceedsCutoff, decide_eq_false_iff_not, not_lt] at h
  exact h

theorem pairLE_trans (a b c : DistancePair)
    (hab : pairLE a b) (hbc : pairLE b c) : pairLE a c := by
  simp only [pairLE, decide_eq_true_eq] at hab hbc ⊢
  exact le_trans hab hbc

theorem pairLE_total (a b : DistancePair) : pairLE a b || pairLE b a := by
  simp only [pairLE, Bool.or_eq_true, decide_eq_true_eq]
  exact le_total _ _

theorem sortPairs_sorted (l : List DistancePair) :
    (sortPairs l).Pairwise (fun a b => a.distance_km ≤ b.distance_km) := by
  have h := List.sorted_mergeSort pairLE_trans pairLE_total l
  exact h.imp (fun hab => by simpa [pairLE] using hab)

theorem sortPairs_of_sorted (l : List DistancePair)
    (h : l.Pairwise (fun a b => a.distance_km ≤ b.distance_km)) :
    sortPairs l = l :=
  List.mergeSort_of_sorted
    (h.imp (fun hab => by simp [pairLE, decide_eq_true_eq]; exact hab))

theorem sortPairs_idempotent (l : List DistancePair) :
    sortPairs (sortPairs l) = sortPairs l :=
  List.mergeSort_of_sorted (List.sorted_mergeSort pairLE_trans pairLE_total l)

theorem sortPairs_stable (l : List DistancePair) (c : ℚ) :
    (sortPairs l).filter (fun p => decide (p.distance_km = c)) =
      l.filter (fun p => decide (p.distance_km = c)) := by
  have hmem : ∀ x ∈ l.filter (fun p => decide (p.distance_km = c)),
      x.distance_km = c := by
    intro x hx
    simpa using List.of_mem_filter hx
  have hpair : (l.filter (fun p => decide (p.distance_km = c))).Pairwise
      (fun a b => pairLE a b) := by
    apply List.pairwise_of_forall_mem_list
    intro a ha b hb
    simp only [pairLE, decide_eq_true_eq]
    rw [hmem a ha, hmem b hb]
  have h1 : List.Sublist (l.filter (fun p => decide (p.distance_km = c)))
      (List.mergeSort l pairLE) :=
    List.sublist_mergeSort pairLE_trans pairLE_total hpair
      (List.filter_sublist l)
  have h2 : List.Sublist
      ((l.filter (fun p => decide (p.distance_km = c))).filter
        (fun p => decide (p.distance_km = c)))
      ((List.mergeSort l pairLE).filter (fun p => decide (p.distance_km = c))) :=
    h1.filter _
  have h3 : (l.filter (fun p => decide (p.distance_km = c))).filter
        (fun p => decide (p.distance_km = c)) =
      l.filter (fun p => decide (p.distance_km = c)) := by
    rw [List.filter_eq_self]
    intro a ha
    exact (List.mem_filter.mp ha).2
  rw [h3] at h2
  have hperm : List.Perm
      ((List.mergeSort l pairLE).filter (fun p => decide (p.distance_km = c)))
      (l.filter (fun p => decide (p.distance_km = c))) :=
    (List.mergeSort_perm l pairLE).filter _
  exact (h2.eq_of_length hperm.length_eq.symm).symm

/-- C1: a run performs exactly two allocation passes over the same
distance-ordered pair sequence, pass 1 with the industrial demand map
and pass 2 with the residential demand map, both sharing one supply
map so that pass 2 starts from the supply map exactly as pass 1 left
it; the run's output record sequence is pass 1's records followed by
pass 2's records, each pass's records in emission order. -/
theorem run_two_passes (od_df : List DistancePair)
    (supply ind res : AllocMap) (c : Option ℚ) :
    (runAllocation od_df supply ind res c).alloc_ind =
        (greedy_allocate od_df supply ind "industrial" c).allocations ∧
    (runAllocation od_df supply ind res c).cost_ind =
        (greedy_allocate od_df supply ind "industrial" c).total_weighted_cost ∧
    (runAllocation od_df supply ind res c).alloc_res =
        (greedy_allocate od_df
          (greedy_allocate od_df supply ind "industrial" c).supply_map
          res "residential" c).allocations ∧
    (runAllocation od_df supply ind res c).cost_res =
        (greedy_allocate od_df
          (greedy_allocate od_df supply ind "industrial" c).supply_map
          res "residential" c).total_weighted_cost ∧
    (runAllocation od_df supply ind res c).records =
        (runAllocation od_df supply ind res c).alloc_ind ++
          (runAllocation od_df supply ind res c).alloc_res ∧
    (runAllocation od_df supply ind res c).final_supply =
        (greedy_allocate od_df
          (greedy_allocate od_df supply ind "industrial" c).supply_map
          res "residential" c).supply_map :=
  ⟨rfl, rfl, rfl, rfl, rfl, rfl⟩

/-- C2: every record emitted by greedy_allocate has allocated_volume
equal to the minimum of the remaining supply at its origin and the
remaining demand at its destination as they stood at the moment of
that step, allocated_volume strictly positive, and weighted_cost equal
to allocated_volume times the pair's distance. -/
theorem allocation_amount_and_cost :
    (∀ (od : List DistancePair) (s dm : AllocMap) (dt : String)
        (c : Option ℚ) (r : AllocationRecord),
        r ∈ (greedy_allocate od s dm dt c).allocations →
          0 < r.allocated_volume ∧
          r.weighted_cost = r.allocated_volume * r.distance_km) ∧
    (∀ (dt : String) (c : Option ℚ) (st : PassState) (row : DistancePair)
        (r : AllocationRecord),
        (allocStep dt c st row).allocations = st.allocations ++ [r] →
          r.allocated_volume =
            min (st.supply_map row.origin_id)
              (st.demand_map row.destination_id) ∧
          0 < r.allocated_volume ∧
          r.weighted_cost = r.allocated_volume * row.distance_km) := by
  constructor
  · intro od s dm dt c r h
    obtain ⟨st, row, _, h2, h3, h4⟩ := greedy_records_emitted od s dm dt c r h
    subst h4
    exact ⟨emitRecord_volume_pos dt st row h2 h3, emitRecord_wcost dt st row⟩
  · intro dt c st row r h
    obtain ⟨_, h2, h3, h4, _⟩ := step_emit_eq dt c st row r h
    subst h4
    refine ⟨?_, emitRecord_volume_pos dt st row h2 h3, rfl⟩
    exact allocAmount_eq_min st row

theorem allocation_amount_and_cost_witness :
    (0 < exRecordInd.allocated_volume ∧
      exRecordInd.weighted_cost =
        exRecordInd.allocated_volume * exRecordInd.distance_km) ∧
    (exRecordInd.allocated_volume =
        min (exState.supply_map exRow.origin_id)
          (exState.demand_map exRow.destination_id) ∧
      0 < exRecordInd.allocated_volume ∧
      exRecordInd.weighted_cost =
        exRecordInd.allocated_volume * exRow.distance_km) := by
  constructor
  · exact allocation_amount_and_cost.1 exPairs exSupply exInd "industrial"
      (some 50) exRecordInd
      (by norm_num [greedy_allocate, allocStep, exPairs, exSupply, exInd,
        updateMap, distanceExceedsCutoff, exRecordInd])
  · exact allocation_amount_and_cost.2 "industrial" (some 50) exState exRow
      exRecordInd
      (by norm_num [allocStep, exState, exRow, exSupply, exInd, updateMap,
        distanceExceedsCutoff, exRecordInd])

/-- C3: with a finite cutoff, a pair is excluded on distance grounds
exactly when its distance is strictly greater than the cutoff, an
excluded pair leaves the step a no-op, no emitted record has distance
above the cutoff, and a pair at exactly the cutoff distance is not
excluded; with no cutoff the distance test never excludes; on the
spec's second example (cutoff 3, distance 5) the run emits no record. -/
theorem cutoff_enforcement :
    (∀ c dist : ℚ,
        distanceExceedsCutoff (some c) dist = true ↔ c < dist) ∧
    (∀ dist : ℚ, distanceExceedsCutoff none dist = false) ∧
    (∀ c : ℚ, distanceExceedsCutoff (some c) c = false) ∧
    (∀ (dt : String) (c : Option ℚ) (st : PassState) (row : DistancePair),
        distanceExceedsCutoff c row.distance_km = true →
        allocStep dt c st row = st) ∧
    (∀ (od : List DistancePair) (s dm : AllocMap) (dt : String) (c : ℚ)
        (r : AllocationRecord),
        r ∈ (greedy_allocate od s dm dt (some c)).allocations →
        r.distance_km ≤ c) ∧
    (runAllocation exPairs exSupply exInd exRes (some 3)).records = [] := by
  refine ⟨?_, ?_, ?_, ?_, ?_, ?_⟩
  · intro c dist
    simp [distanceExceedsCutoff]
  · intro dist
    rfl
  · intro c
    simp [distanceExceedsCutoff]
  · intro dt c st row h
    simp [allocStep, h]
  · intro od s dm dt c r h
    obtain ⟨st, row, h1, _, _, h4⟩ := greedy_records_emitted od s dm dt (some c) r h
    have hle := cutoff_false_le c row.distance_km h1
    subst h4
    exact hle
  · norm_num [runAllocation, greedy_allocate, allocStep, exPairs, exSupply,
      exInd, exRes, updateMap, distanceExceedsCutoff]

theorem cutoff_enforcement_witness :
    allocStep "industrial" (some 3) exState exRow = exState ∧
    exRecordInd.distance_km ≤ 50 := by
  constructor
  · exact cutoff_enforcement.2.2.2.1 "industrial" (some 3) exState exRow
      (by norm_num [distanceExceedsCutoff, exRow])
  · exact cutoff_enforcement.2.2.2.2.1 exPairs exSupply exInd "industrial" 50
      exRecordInd
      (by norm_num [greedy_allocate, allocStep, exPairs, exSupply, exInd,
        updateMap, distanceExceedsCutoff, exRecordInd])

/-- C4: for every location, the initial supply minus the total
allocated volume originating there across both passes equals the final
remaining supply, which is nonnegative whenever the initial supply is;
the analogous equation and bound hold per demand class for
destinations. -/
theorem conservation (od_df : List DistancePair)
    (supply ind res : AllocMap) (c : Option ℚ) (loc : Location) :
    ((runAllocation od_df supply ind res c).final_supply loc =
      supply loc -
        originVolume loc (runAllocation od_df supply ind res c).records) ∧
    (0 ≤ supply loc →
      0 ≤ (runAllocation od_df supply ind res c).final_supply loc) ∧
    ((runAllocation od_df supply ind res c).final_ind loc =
      ind loc -
        destVolume loc (runAllocation od_df supply ind res c).alloc_ind) ∧
    (0 ≤ ind loc →
      0 ≤ (runAllocation od_df supply ind res c).final_ind loc) ∧
    ((runAllocation od_df supply ind res c).final_res loc =
      res loc -
        destVolume loc (runAllocation od_df supply ind res c).alloc_res) ∧
    (0 ≤ res loc →
      0 ≤ (runAllocation od_df supply ind res c).final_res loc) := by
  have hp1s := greedy_supply_conserve od_df supply ind "industrial" c loc
  have hp1d := greedy_demand_conserve od_df supply ind "industrial" c loc
  have hp2s := greedy_supply_conserve od_df
    (greedy_allocate od_df supply ind "industrial" c).supply_map
    res "residential" c loc
  have hp2d := greedy_demand_conserve od_df
    (greedy_allocate od_df supply ind "industrial" c).supply_map
    res "residential" c loc
  refine ⟨?_, ?_, ?_, ?_, ?_, ?_⟩
  · show (greedy_allocate od_df
        (greedy_allocate od_df supply ind "industrial" c).supply_map
        res "residential" c).supply_map loc =
      supply loc - originVolume loc
        ((greedy_allocate od_df supply ind "industrial" c).allocations ++
          (greedy_allocate od_df
            (greedy_allocate od_df supply ind "industrial" c).supply_map
            res "residential" c).allocations)
    rw [originVolume_append]
    linarith
  · intro h
    exact greedy_supply_nonneg od_df _ res "residential" c loc
      (greedy_supply_nonneg od_df supply ind "industrial" c loc h)
  · show (greedy_allocate od_df supply ind "industrial" c).demand_map loc =
      ind loc -
        destVolume loc (greedy_allocate od_df supply ind "industrial" c).allocations
    linarith
  · intro h
    exact greedy_demand_nonneg od_df supply ind "industrial" c loc h
  · show (greedy_allocate od_df
        (greedy_allocate od_df supply ind "industrial" c).supply_map
        res "residential" c).demand_map loc =
      res loc - destVolume loc
        (greedy_allocate od_df
          (greedy_allocate od_df supply ind "industrial" c).supply_map
          res "residential" c).allocations
    linarith
  · intro h
    exact greedy_demand_nonneg od_df _ res "residential" c loc h

theorem conservation_witness :
    (exRun.final_supply "A" =
      exSupply "A" - originVolume "A" exRun.records) ∧
    0 ≤ exRun.final_supply "A" ∧
    (exRun.final_ind "B" = exInd "B" - destVolume "B" exRun.alloc_ind) ∧
    0 ≤ exRun.final_ind "B" ∧
    (exRun.final_res "B" = exRes "B" - destVolume "B" exRun.alloc_res) ∧
    0 ≤ exRun.final_res "B" := by
  have hA := conservation exPairs exSupply exInd exRes (some 50) "A"
  have hB := conservation exPairs exSupply exInd exRes (some 50) "B"
  exact ⟨hA.1, hA.2.1 (by norm_num [exSupply]), hB.2.2.1,
    hB.2.2.2.1 (by norm_num [exInd]), hB.2.2.2.2.1,
    hB.2.2.2.2.2 (by norm_num [exRes])⟩

/-- C5: on supply at A of 10, industrial demand at B of 6, residential
demand at B of 10, one pair A to B at distance 5 and cutoff 50, the
run emits exactly one industrial record allocating 6 (leaving supply 4
at A and industrial demand 0 at B) and one residential record
allocating 4 (leaving supply 0 at A and residential demand 6 at B),
with total allocated volume 10, industrial weighted cost 30 and
residential weighted cost 20. -/
theorem worked_example :
    exRun.alloc_ind = [exRecordInd] ∧
    exRun.alloc_res = [exRecordRes] ∧
    (greedy_allocate exPairs exSupply exInd "industrial"
      (some 50)).supply_map "A" = 4 ∧
    (greedy_allocate exPairs exSupply exInd "industrial"
      (some 50)).demand_map "B" = 0 ∧
    exRun.final_supply "A" = 0 ∧
    exRun.final_res "B" = 6 ∧
    (exRun.records.map AllocationRecord.allocated_volume).sum = 10 ∧
    exRun.cost_ind = 30 ∧
    exRun.cost_res = 20 := by
  refine ⟨?_, ?_, ?_, ?_, ?_, ?_, ?_, ?_, ?_⟩ <;>
    norm_num [exRun, runAllocation, greedy_allocate, allocStep, exPairs,
      exSupply, exInd, exRes, updateMap, distanceExceedsCutoff,
      exRecordInd, exRecordRes]

/-- C6: a pair whose origin has remaining supply at most 0 or whose
destination has remaining demand at most 0 (an absent location reading
as 0) produces no record and leaves the whole pass state, in
particular both maps, unchanged. -/
theorem skip_nonpositive (dt : String) (c : Option ℚ) (st : PassState)
    (row : DistancePair)
    (h : st.supply_map row.origin_id ≤ 0 ∨
         st.demand_map row.destination_id ≤ 0) :
    allocStep dt c st row = st := by
  rcases allocStep_skip_or_emit dt c st row with he | ⟨_, h2, h3, _⟩
  · exact he
  · rcases h with h | h
    · linarith
    · linarith

theorem skip_nonpositive_witness :
    allocStep "industrial" (some 50) exStateZero exRow = exStateZero :=
  skip_nonpositive "industrial" (some 50) exStateZero exRow
    (Or.inl (by norm_num [exStateZero, exRow]))

/-- C7: the total weighted cost returned by greedy_allocate equals the
sum, in emission order, of the weighted_cost fields of the records it
returns. -/
theorem total_cost_eq_sum (od : List DistancePair) (s dm : AllocMap)
    (dt : String) (c : Option ℚ) :
    (greedy_allocate od s dm dt c).total_weighted_cost =
      ((greedy_allocate od s dm dt c).allocations.map
        AllocationRecord.weighted_cost).sum :=
  greedy_cost_sum od s dm dt c

/-- C8: when a required column is absent after column-name
normalization, loading aborts with exactly the set of missing required
columns before any allocation runs: main produces the error and no
RunResult, and the reported list contains precisely the required
columns absent from the renamed header. -/
theorem missing_columns_abort (ds : DSInput) (od : ODInput)
    (c : Option ℚ) :
    (ds_missing ds.columns ≠ [] →
      main_run ds od c = Except.error (ds_missing ds.columns)) ∧
    (ds_missing ds.columns = [] → od_missing od.columns ≠ [] →
      main_run ds od c = Except.error (od_missing od.columns)) ∧
    (∀ col : String, col ∈ ds_missing ds.columns ↔
      (col ∈ ds_required ∧ col ∉ renameColumns ds_rename_map ds.columns)) ∧
    (∀ col : String, col ∈ od_missing od.columns ↔
      (col ∈ od_required ∧ col ∉ renameColumns od_rename_map od.columns)) := by
  refine ⟨?_, ?_, ?_, ?_⟩
  · intro h
    have hne : ¬ ((ds_missing ds.columns).isEmpty = true) := by
      simpa [List.isEmpty_iff] using h
    simp [main_run, load_demand_supply, hne]
  · intro h1 h2
    have he : (ds_missing ds.columns).isEmpty = true := by
      simp [List.isEmpty_iff, h1]
    have hne : ¬ ((od_missing od.columns).isEmpty = true) := by
      simpa [List.isEmpty_iff] using h2
    simp [main_run, load_demand_supply, load_od, he, hne]
  · intro col
    simp [ds_missing, List.mem_filter]
  · intro col
    simp [od_missing, List.mem_filter]

theorem missing_columns_abort_witness :
    main_run exDS exOD (some 50) = Except.error (ds_missing exDS.columns) ∧
    main_run exDSok exODbad (some 50) =
      Except.error (od_missing exODbad.columns) := by
  constructor
  · exact (missing_columns_abort exDS exOD (some 50)).1 (by decide)
  · exact (missing_columns_abort exDSok exODbad (some 50)).2.1
      (by decide) (by decide)

/-- C9: the distance table is sorted into ascending order by distance
with a stable sort (records with equal distance keep their input
relative order), load_od returns exactly that sorted sequence, sorting
an already sorted table is the identity, and the sort is idempotent. -/
theorem stable_sort :
    (∀ l : List DistancePair,
        (sortPairs l).Pairwise (fun a b => a.distance_km ≤ b.distance_km)) ∧
    (∀ (l : List DistancePair) (c : ℚ),
        (sortPairs l).filter (fun p => decide (p.distance_km = c)) =
          l.filter (fun p => decide (p.distance_km = c))) ∧
    (∀ l : List DistancePair,
        l.Pairwise (fun a b => a.distance_km ≤ b.distance_km) →
        sortPairs l = l) ∧
    (∀ l : List DistancePair, sortPairs (sortPairs l) = sortPairs l) ∧
    (∀ (t : ODInput) (out : List DistancePair),
        load_od t = Except.ok out → out = sortPairs t.pairs) := by
  refine ⟨sortPairs_sorted, sortPairs_stable, sortPairs_of_sorted,
    sortPairs_idempotent, ?_⟩
  intro t out h
  unfold load_od at h
  by_cases he : (od_missing t.columns).isEmpty = true
  · rw [if_pos he] at h
    simp only [Except.ok.injEq] at h
    exact h.symm
  · rw [if_neg he] at h
    simp at h

theorem stable_sort_witness :
    sortPairs [exRow] = [exRow] ∧
    ([] : List DistancePair) = sortPairs exOD.pairs := by
  constructor
  · exact stable_sort.2.2.1 [exRow] (by simp)
  · exact stable_sort.2.2.2.2 exOD []
      (by simp [load_od, od_missing, od_required, od_rename_map,
        renameColumns, exOD, sortPairs, List.lookup])

/-- C10: every emitting allocation step fully exhausts one side:
immediately after the update, the remaining supply at the origin or
the remaining demand at the destination is exactly 0, so both cannot
stay positive. -/
theorem step_exhausts_side (dt : String) (c : Option ℚ) (st : PassState)
    (row : DistancePair) (r : AllocationRecord)
    (h : (allocStep dt c st row).allocations = st.allocations ++ [r]) :
    ((allocStep dt c st row).supply_map row.origin_id = 0 ∨
     (allocStep dt c st row).demand_map row.destination_id = 0) ∧
    ¬ (0 < (allocStep dt c st row).supply_map row.origin_id ∧
       0 < (allocStep dt c st row).demand_map row.destination_id) := by
  obtain ⟨_, _, _, _, h5⟩ := step_emit_eq dt c st row r h
  rw [h5]
  have hsup : (emitState dt st row).supply_map row.origin_id =
      st.supply_map row.origin_id - allocAmount st row := by
    simp [emitState, updateMap]
  have hdem : (emitState dt st row).demand_map row.destination_id =
      st.demand_map row.destination_id - allocAmount st row := by
    simp [emitState, updateMap]
  rw [hsup, hdem]
  have hcase : allocAmount st row = st.supply_map row.origin_id ∨
      allocAmount st row = st.demand_map row.destination_id := by
    unfold allocAmount
    split
    · exact Or.inl rfl
    · exact Or.inr rfl
  have hd : st.supply_map row.origin_id - allocAmount st row = 0 ∨
      st.demand_map row.destination_id - allocAmount st row = 0 := by
    rcases hcase with h | h
    · left
      rw [h]
      ring
    · right
      rw [h]
      ring
  refine ⟨hd, fun hc => ?_⟩
  rcases hd with h0 | h0
  · linarith [hc.1]
  · linarith [hc.2]

theorem step_exhausts_side_witness :
    ((allocStep "industrial" (some 50) exState exRow).supply_map
        exRow.origin_id = 0 ∨
      (allocStep "industrial" (some 50) exState exRow).demand_map
        exRow.destination_id = 0) ∧
    ¬ (0 < (allocStep "industrial" (some 50) exState exRow).supply_map
          exRow.origin_id ∧
        0 < (allocStep "industrial" (some 50) exState exRow).demand_map
          exRow.destination_id) :=
  step_exhausts_side "industrial" (some 50) exState exRow exRecordInd
    (by norm_num [allocStep, exState, exRow, exSupply, exInd, updateMap,
      distanceExceedsCutoff, exRecordInd])

end Firewood
